import Mathlib

/-!
Shallow embedding of the Horizon Ramdisk device emulation
(src/devices/bus/ti99/peb/horizon.cpp) and of the QVT-103 skeleton driver
(src/mame/drivers/qvt103.cpp), with theorems checking the specification's
claims about them.

Machine conventions of the embedding:
* bytes (`uint8_t`) and addresses (`offs_t`) are represented as `Nat`;
  every memory access in the source goes through an explicit mask, so no
  overflow can occur and the `Nat` representation is exact;
* `m_page` is a C++ `int` that is only manipulated through `setbit`
  (single-bit or / and-not on a 32-bit quantity); it is represented as `Nat`,
  with the and-not clearing realized as `&&& (0xffffffff ^^^ pattern)`;
* the memory regions (`m_nvram`, `m_ros`, `m_ram`) are total functions
  `Nat → Nat`; the `.nv` file passed to `nvram_read` / produced by
  `nvram_write` is a `List Nat` of bytes;
* `readz(offset, value)` mutates only `*value`; it is embedded as a function
  returning the (unchanged) device state together with the new `*value`, so
  that the frame claims about it are actual theorems;
* the configuration value of the ioport "HORIZONSIZE" (field mask 0x03,
  hence a value in 0..3) is read afresh on each call of `cruwrite`,
  `nvram_read` and `nvram_write` in the source, so it is passed to those
  functions as an explicit argument `size`.
-/

namespace Horizon

def MAXSIZE : Nat := 16777216

def ROSSIZE : Nat := 8192

/-- Device state of `horizon_ramdisk_device`: the member variables that the
modelled member functions read or write, plus the three memory regions. -/
structure State where
  page : Nat
  selected : Bool
  cru_horizon : Nat
  cru_phoenix : Nat
  timode : Bool
  installed32k : Bool
  split_mode : Bool
  rambo_mode : Bool
  hideswitch : Bool
  use_rambo : Bool
  genmod_fix : Bool
  nvram : Nat → Nat
  ros : Nat → Nat
  ram : Nat → Nat

/-- Modelled from the spec: `in_dsr_space` is defined in the TI-99 peribox
card interface, which is not part of this excerpt.  Per the source comments,
the DSR (device service routine) window is the area 4000-5fff; "the Horizon
Ramdisks do not decode the AMA/AMB/AMC lines", and the Genmod fix makes the
card decode them, i.e. additionally require the three extended address lines
(bits 16-18 of the offset) to be set. -/
def in_dsr_space (offset : Nat) (amadec : Bool) : Bool :=
  if amadec then (offset &&& 0x7e000) == 0x74000
  else (offset &&& 0xe000) == 0x4000

/-- Modelled from the spec: `in_cart_space` is defined in the TI-99 peribox
card interface, which is not part of this excerpt.  Per the source comments,
the cartridge window is the area 6000-7fff, with the same AMA/AMB/AMC
decoding under the Genmod fix as `in_dsr_space`. -/
def in_cart_space (offset : Nat) (amadec : Bool) : Bool :=
  if amadec then (offset &&& 0x7e000) == 0x76000
  else (offset &&& 0xe000) == 0x6000

/-- The 32K-expansion head of `horizon_ramdisk_device::readz`: when the 32K
expansion is installed and the offset falls in one of its four windows, the
read is served from `m_ram` and the function returns immediately (`some`);
otherwise control falls through (`none`). -/
def readz32k (st : State) (offset : Nat) : Option Nat :=
  if st.installed32k then
    match (offset &&& 0xe000) >>> 13 with
    | 1 => some (st.ram (offset &&& 0x1fff))
    | 5 => some (st.ram ((offset &&& 0x1fff) ||| 0x2000))
    | 6 => some (st.ram ((offset &&& 0x1fff) ||| 0x4000))
    | 7 => some (st.ram ((offset &&& 0x1fff) ||| 0x6000))
    | _ => none
  else none

/-- `horizon_ramdisk_device::readz(offset, value)`.  Returns the device state
(unchanged: the source performs no member assignment) and the final value of
`*value` (unchanged whenever the source takes an early return or no branch
assigns it). -/
def readz (st : State) (offset : Nat) (value : Nat) : State × Nat :=
  match readz32k st offset with
  | some v => (st, v)
  | none =>
    if st.hideswitch then (st, value)
    else if !st.selected && !st.rambo_mode then (st, value)
    else if !st.rambo_mode then
      if in_dsr_space offset st.genmod_fix then
        if (offset &&& 0x1800) == 0x1800 then
          (st, st.nvram ((st.page <<< 11) ||| (offset &&& 0x7ff)))
        else
          (st, st.ros (offset &&& 0x1fff))
      else (st, value)
    else
      let v1 := if in_dsr_space offset st.genmod_fix then
          st.ros (offset &&& 0x1fff) else value
      let v2 := if in_cart_space offset st.genmod_fix then
          st.nvram (((st.page &&& 0xfffc) <<< 11) ||| (offset &&& 0x1fff)) else v1
      (st, v2)

/-- The 32K-expansion head of `horizon_ramdisk_device::write`: `some` when
the write was served by the 32K RAM (early return), `none` on fall-through. -/
def write32k (st : State) (offset : Nat) (data : Nat) : Option State :=
  if st.installed32k then
    match (offset &&& 0xe000) >>> 13 with
    | 1 => some { st with ram := Function.update st.ram (offset &&& 0x1fff) data }
    | 5 => some { st with ram := Function.update st.ram ((offset &&& 0x1fff) ||| 0x2000) data }
    | 6 => some { st with ram := Function.update st.ram ((offset &&& 0x1fff) ||| 0x4000) data }
    | 7 => some { st with ram := Function.update st.ram ((offset &&& 0x1fff) ||| 0x6000) data }
    | _ => none
  else none

/-- `horizon_ramdisk_device::write(offset, data)`. -/
def write (st : State) (offset : Nat) (data : Nat) : State :=
  match write32k st offset data with
  | some st1 => st1
  | none =>
    if st.hideswitch then st
    else if !st.selected && !st.rambo_mode then st
    else if !st.rambo_mode then
      if in_dsr_space offset st.genmod_fix then
        if (offset &&& 0x1800) == 0x1800 then
          let idx := (st.page <<< 11) ||| (offset &&& 0x7ff)
          { st with nvram := Function.update st.nvram idx data }
        else
          { st with ros := Function.update st.ros (offset &&& 0x1fff) data }
      else st
    else
      let st1 := if in_dsr_space offset st.genmod_fix then
          { st with ros := Function.update st.ros (offset &&& 0x1fff) data } else st
      if in_cart_space offset st.genmod_fix then
        let idx := ((st1.page &&& 0xfffc) <<< 11) ||| (offset &&& 0x1fff)
        { st1 with nvram := Function.update st1.nvram idx data }
      else st1

/-- `horizon_ramdisk_device::crureadz`: "There is no CRU read operation for
the Horizon." — the body is a bare `return`. -/
def crureadz (st : State) (_offset : Nat) (value : Nat) : State × Nat :=
  (st, value)

/-- `horizon_ramdisk_device::setbit(page, pattern, set)`: `page |= pattern`
or `page &= ~pattern` on a 32-bit `int`. -/
def setbit (page : Nat) (pattern : Nat) (set : Bool) : Nat :=
  if set then page ||| pattern
  else page &&& (0xffffffff ^^^ pattern)

/-- The `switch (bit)` statement of `horizon_ramdisk_device::cruwrite`, for
`bit = (offset >> 1) & 0x0f`.  The final arm corresponds to the C++
`default:` label, which (for `bit ≤ 15`) covers exactly bits 10-13. -/
def cruwriteBit (st : State) (size : Nat) (bit : Nat) (data : Nat) : State :=
  let split_bit := size + 10
  if bit = 0 then { st with selected := data != 0 }
  else if bit = 1 then
    if st.rambo_mode then st
    else { st with page := setbit st.page 0x0002 (data != 0) }
  else if bit = 2 then
    if st.rambo_mode then st
    else { st with page := setbit st.page 0x0001 (data != 0) }
  else if 3 ≤ bit ∧ bit ≤ 9 then
    { st with page := setbit st.page (0x0001 <<< (bit - 1)) (data != 0) }
  else if bit = 14 then st
  else if bit = 15 then
    if st.use_rambo then { st with rambo_mode := data != 0 } else st
  else
    if bit ≠ split_bit ∨ st.split_mode = false then
      if bit ≤ split_bit then
        { st with page := setbit st.page (0x0200 <<< (bit - 10)) (data != 0) }
      else st
    else st

/-- `horizon_ramdisk_device::cruwrite(offset, data)`; `size` is the value
read from the "HORIZONSIZE" ioport. -/
def cruwrite (st : State) (size : Nat) (offset : Nat) (data : Nat) : State :=
  let splitpagebit := 0x0200 <<< size
  if (offset &&& 0xff00) = st.cru_horizon ∨ (offset &&& 0xff00) = st.cru_phoenix then
    let bit := (offset >>> 1) &&& 0x0f
    let st1 := cruwriteBit st size bit data
    if st1.split_mode then
      if st1.timode then
        let byaddr := decide ((offset &&& 0xff00) = st1.cru_phoenix)
        { st1 with page := setbit st1.page splitpagebit byaddr }
      else
        { st1 with page := setbit st1.page splitpagebit (decide (7 < bit)) }
    else st1
  else st

/-- `horizon_ramdisk_device::device_reset`; the arguments are the values
read from the configuration ioports. -/
def device_reset (st : State) (cruhor cruphoe h32 dual act rambo genmod : Nat) :
    State :=
  { st with
    cru_horizon := cruhor
    cru_phoenix := cruphoe
    installed32k := h32 != 0
    split_mode := dual != 0
    timode := dual == 1
    rambo_mode := false
    hideswitch := act != 0
    use_rambo := rambo != 0
    genmod_fix := genmod != 0
    page := 0
    selected := false }

/-- A sequence of CRU writes, each given as (offset, data). -/
def runCru (size : Nat) (st : State) (ops : List (Nat × Nat)) : State :=
  ops.foldl (fun s op => cruwrite s size op.1 op.2) st

/-- `2097152*(1 << size)`: the configured NVRAM size in bytes. -/
def nvramSize (size : Nat) : Nat := 2097152 * (1 <<< size)

/-- `horizon_ramdisk_device::nvram_write(file)`: the byte stream written to
the `.nv` file — `nvramSize size` bytes of NVRAM followed by the 8 KiB ROS. -/
def nvram_write (st : State) (size : Nat) : List Nat :=
  (List.range (nvramSize size)).map st.nvram ++ (List.range ROSSIZE).map st.ros

/-- `horizon_ramdisk_device::nvram_read(file)`: zero-fills the configured
NVRAM portion and the ROS, reads at most `MAXSIZE + ROSSIZE` bytes of the
file into a zero-cleared buffer, and, when at least `ROSSIZE` bytes were
read, copies the first `filesize - ROSSIZE` bytes to NVRAM and the following
`ROSSIZE` bytes to ROS. -/
def nvram_read (st : State) (size : Nat) (file : List Nat) : State :=
  let filesize := min file.length (MAXSIZE + ROSSIZE)
  let buffer : Nat → Nat := fun i => if i < filesize then file.getD i 0 else 0
  let st0 := { st with
    nvram := fun i => if i < nvramSize size then 0 else st.nvram i
    ros := fun i => if i < ROSSIZE then 0 else st.ros i }
  if ROSSIZE ≤ filesize then
    let nvramsize := filesize - ROSSIZE
    { st0 with
      nvram := fun i => if i < nvramsize then buffer i else st0.nvram i
      ros := fun i => if i < ROSSIZE then buffer (nvramsize + i) else st0.ros i }
  else st0

/-- A concrete device state used to instantiate theorems with hypotheses. -/
def sampleState : State where
  page := 0
  selected := true
  cru_horizon := 0x1200
  cru_phoenix := 0x1400
  timode := false
  installed32k := false
  split_mode := false
  rambo_mode := false
  hideswitch := false
  use_rambo := true
  genmod_fix := false
  nvram := fun _ => 0
  ros := fun _ => 0
  ram := fun _ => 0

end Horizon

namespace Qvt103

/-- `qvt103_state::screen_update`: the body is `return 0;` — the bitmap is
returned untouched together with the result value 0. -/
def screen_update {Screen Bitmap Rect : Type}
    (_screen : Screen) (bitmap : Bitmap) (_cliprect : Rect) : Bitmap × Nat :=
  (bitmap, 0)

end Qvt103

namespace Horizon

/-- Extracting a submask: if every bit of `B` is a bit of `A`, then
`off &&& B` is determined by `off &&& A`. -/
theorem and_mask_subset {off A B C : Nat} (hAB : A &&& B = B) (h : off &&& A = C) :
    off &&& B = C &&& B := by
  conv_lhs => rw [← hAB]
  rw [← Nat.land_assoc, h]

/-- A DSR-space offset selects case 2 of the 32K-expansion switch. -/
theorem in_dsr_sel2 {off : Nat} {g : Bool} (h : in_dsr_space off g = true) :
    (off &&& 0xe000) >>> 13 = 2 := by
  cases g
  · simp only [in_dsr_space, Bool.false_eq_true, if_false, beq_iff_eq] at h
    rw [h]
    decide
  · simp only [in_dsr_space, if_true, beq_iff_eq] at h
    rw [and_mask_subset (A := 0x7e000) (B := 0xe000) (by decide) h]
    decide

/-- A cartridge-space offset selects case 3 of the 32K-expansion switch. -/
theorem in_cart_sel3 {off : Nat} {g : Bool} (h : in_cart_space off g = true) :
    (off &&& 0xe000) >>> 13 = 3 := by
  cases g
  · simp only [in_cart_space, Bool.false_eq_true, if_false, beq_iff_eq] at h
    rw [h]
    decide
  · simp only [in_cart_space, if_true, beq_iff_eq] at h
    rw [and_mask_subset (A := 0x7e000) (B := 0xe000) (by decide) h]
    decide

/-- The DSR and cartridge windows are disjoint. -/
theorem cart_of_dsr_false {off : Nat} {g : Bool} (h : in_dsr_space off g = true) :
    in_cart_space off g = false := by
  cases g <;>
    simp only [in_dsr_space, in_cart_space, Bool.false_eq_true, if_false, if_true,
      beq_iff_eq, beq_eq_false_iff_ne, ne_eq] at h ⊢ <;> rw [h] <;> decide

/-- The DSR and cartridge windows are disjoint. -/
theorem dsr_of_cart_false {off : Nat} {g : Bool} (h : in_cart_space off g = true) :
    in_dsr_space off g = false := by
  cases g <;>
    simp only [in_dsr_space, in_cart_space, Bool.false_eq_true, if_false, if_true,
      beq_iff_eq, beq_eq_false_iff_ne, ne_eq] at h ⊢ <;> rw [h] <;> decide

/-- The 32K expansion never serves an offset whose window selector is 2 or 3
(DSR and cartridge space). -/
theorem readz32k_skip {st : State} {off : Nat}
    (h : (off &&& 0xe000) >>> 13 = 2 ∨ (off &&& 0xe000) >>> 13 = 3) :
    readz32k st off = none := by
  unfold readz32k
  rcases h with h | h <;> rw [h] <;> split <;> rfl

/-- The 32K expansion never serves a write whose window selector is 2 or 3. -/
theorem write32k_skip {st : State} {off d : Nat}
    (h : (off &&& 0xe000) >>> 13 = 2 ∨ (off &&& 0xe000) >>> 13 = 3) :
    write32k st off d = none := by
  unfold write32k
  rcases h with h | h <;> rw [h] <;> split <;> rfl

end Horizon

namespace Horizon

/-- C1: In Horizon page mode (`m_rambo_mode` false), for every offset in DSR
space with the card selected and the hideswitch off, `readz` returns the
NVRAM byte at `(m_page << 11) | (offset & 0x07ff)` when
`(offset & 0x1800) == 0x1800` and otherwise the ROS byte at
`offset & 0x1fff`; `write` stores to the same locations under the same
conditions.  (Offsets in DSR space are never served by the 32K expansion:
their window selector is 2.) -/
theorem pagemode_read_write (st : State) (offset v d : Nat)
    (hrambo : st.rambo_mode = false) (hsel : st.selected = true)
    (hhide : st.hideswitch = false)
    (hdsr : in_dsr_space offset st.genmod_fix = true) :
    (readz st offset v).2 =
      (if (offset &&& 0x1800) == 0x1800
        then st.nvram ((st.page <<< 11) ||| (offset &&& 0x7ff))
        else st.ros (offset &&& 0x1fff)) ∧
    write st offset d =
      (if (offset &&& 0x1800) == 0x1800
        then { st with nvram :=
            Function.update st.nvram ((st.page <<< 11) ||| (offset &&& 0x7ff)) d }
        else { st with ros :=
            Function.update st.ros (offset &&& 0x1fff) d }) := by
  have h2 := in_dsr_sel2 hdsr
  constructor
  · rw [readz, readz32k_skip (Or.inl h2)]
    simp [hhide, hsel, hrambo, hdsr]
    split <;> rfl
  · rw [write, write32k_skip (Or.inl h2)]
    simp [hhide, hsel, hrambo, hdsr]

theorem pagemode_read_write_witness :
    sampleState.rambo_mode = false ∧ sampleState.selected = true ∧
    sampleState.hideswitch = false ∧
    in_dsr_space 0x5800 sampleState.genmod_fix = true ∧
    ((readz sampleState 0x5800 0).2 =
      (if (0x5800 &&& 0x1800) == 0x1800
        then sampleState.nvram ((sampleState.page <<< 11) ||| (0x5800 &&& 0x7ff))
        else sampleState.ros (0x5800 &&& 0x1fff)) ∧
     write sampleState 0x5800 9 =
      (if (0x5800 &&& 0x1800) == 0x1800
        then { sampleState with
            nvram := Function.update sampleState.nvram ((sampleState.page <<< 11) ||| (0x5800 &&& 0x7ff)) 9 }
        else { sampleState with
            ros := Function.update sampleState.ros (0x5800 &&& 0x1fff) 9 })) :=
  ⟨rfl, rfl, rfl, by decide,
    pagemode_read_write sampleState 0x5800 0 9 rfl rfl rfl (by decide)⟩

end Horizon

namespace Horizon

/-- C2: In RAMBO block mode (`m_rambo_mode` true), with the hideswitch off,
`readz` returns the ROS byte at `offset & 0x1fff` for offsets in DSR space
and the NVRAM byte at `((m_page & 0xfffc) << 11) | (offset & 0x1fff)` for
offsets in cartridge space, regardless of whether the card is selected;
`write` stores to the same locations under the same conditions.  (Neither
window is ever served by the 32K expansion: the selectors are 2 and 3.) -/
theorem rambo_read_write (st : State) (offset v d : Nat)
    (hrambo : st.rambo_mode = true) (hhide : st.hideswitch = false) :
    (in_dsr_space offset st.genmod_fix = true →
      (readz st offset v).2 = st.ros (offset &&& 0x1fff) ∧
      write st offset d = { st with
        ros := Function.update st.ros (offset &&& 0x1fff) d }) ∧
    (in_cart_space offset st.genmod_fix = true →
      (readz st offset v).2 =
        st.nvram (((st.page &&& 0xfffc) <<< 11) ||| (offset &&& 0x1fff)) ∧
      write st offset d = { st with
        nvram := Function.update st.nvram (((st.page &&& 0xfffc) <<< 11) ||| (offset &&& 0x1fff)) d }) := by
  constructor
  · intro hdsr
    have h2 := in_dsr_sel2 hdsr
    have hcart := cart_of_dsr_false hdsr
    constructor
    · rw [readz, readz32k_skip (Or.inl h2)]
      simp [hhide, hrambo, hdsr, hcart]
    · rw [write, write32k_skip (Or.inl h2)]
      simp [hhide, hrambo, hdsr, hcart]
  · intro hcart
    have h3 := in_cart_sel3 hcart
    have hdsr := dsr_of_cart_false hcart
    constructor
    · rw [readz, readz32k_skip (Or.inr h3)]
      simp [hhide, hrambo, hdsr, hcart]
    · rw [write, write32k_skip (Or.inr h3)]
      simp [hhide, hrambo, hdsr, hcart]

theorem rambo_read_write_witness :
    ({ sampleState with rambo_mode := true } : State).rambo_mode = true ∧
    ({ sampleState with rambo_mode := true } : State).hideswitch = false ∧
    ((in_dsr_space 0x4000 ({ sampleState with rambo_mode := true } : State).genmod_fix = true →
      (readz { sampleState with rambo_mode := true } 0x4000 0).2 =
        ({ sampleState with rambo_mode := true } : State).ros (0x4000 &&& 0x1fff) ∧
      write { sampleState with rambo_mode := true } 0x4000 9 =
        { { sampleState with rambo_mode := true } with
          ros := Function.update ({ sampleState with rambo_mode := true } : State).ros (0x4000 &&& 0x1fff) 9 }) ∧
    (in_cart_space 0x4000 ({ sampleState with rambo_mode := true } : State).genmod_fix = true →
      (readz { sampleState with rambo_mode := true } 0x4000 0).2 =
        ({ sampleState with rambo_mode := true } : State).nvram
          ((( ({ sampleState with rambo_mode := true } : State).page &&& 0xfffc) <<< 11) ||| (0x4000 &&& 0x1fff)) ∧
      write { sampleState with rambo_mode := true } 0x4000 9 =
        { { sampleState with rambo_mode := true } with
          nvram := Function.update ({ sampleState with rambo_mode := true } : State).nvram
            ((( ({ sampleState with rambo_mode := true } : State).page &&& 0xfffc) <<< 11) ||| (0x4000 &&& 0x1fff)) 9 })) :=
  ⟨rfl, rfl, rambo_read_write { sampleState with rambo_mode := true } 0x4000 0 9 rfl rfl⟩

/-- C9: When the 32 KiB expansion is installed, every offset whose window
selector `(offset & 0xe000) >> 13` is 1, 5, 6 or 7 (the windows 2000-3fff,
a000-bfff, c000-dfff, e000-ffff) is served by the 32K RAM: `readz` returns
the RAM byte at the mapped index and `write` updates only the RAM there,
regardless of the hideswitch, the card-selected flag and the RAMBO mode,
without touching NVRAM or ROS. -/
theorem ram32k_bypass (st : State) (offset v d : Nat)
    (h32 : st.installed32k = true) :
    ((offset &&& 0xe000) >>> 13 = 1 →
      readz st offset v = (st, st.ram (offset &&& 0x1fff)) ∧
      write st offset d = { st with
        ram := Function.update st.ram (offset &&& 0x1fff) d }) ∧
    ((offset &&& 0xe000) >>> 13 = 5 →
      readz st offset v = (st, st.ram ((offset &&& 0x1fff) ||| 0x2000)) ∧
      write st offset d = { st with
        ram := Function.update st.ram ((offset &&& 0x1fff) ||| 0x2000) d }) ∧
    ((offset &&& 0xe000) >>> 13 = 6 →
      readz st offset v = (st, st.ram ((offset &&& 0x1fff) ||| 0x4000)) ∧
      write st offset d = { st with
        ram := Function.update st.ram ((offset &&& 0x1fff) ||| 0x4000) d }) ∧
    ((offset &&& 0xe000) >>> 13 = 7 →
      readz st offset v = (st, st.ram ((offset &&& 0x1fff) ||| 0x6000)) ∧
      write st offset d = { st with
        ram := Function.update st.ram ((offset &&& 0x1fff) ||| 0x6000) d }) := by
  refine ⟨fun h => ?_, fun h => ?_, fun h => ?_, fun h => ?_⟩ <;>
    exact ⟨by simp [readz, readz32k, h32, h], by simp [write, write32k, h32, h]⟩

theorem ram32k_bypass_witness :
    ({ sampleState with installed32k := true } : State).installed32k = true ∧
    ((0x2000 &&& 0xe000) >>> 13 = 1 →
      readz { sampleState with installed32k := true } 0x2000 0 =
        ({ sampleState with installed32k := true },
          ({ sampleState with installed32k := true } : State).ram (0x2000 &&& 0x1fff)) ∧
      write { sampleState with installed32k := true } 0x2000 9 =
        { { sampleState with installed32k := true } with
          ram := Function.update ({ sampleState with installed32k := true } : State).ram (0x2000 &&& 0x1fff) 9 }) :=
  ⟨rfl, (ram32k_bypass { sampleState with installed32k := true } 0x2000 0 9 rfl).1⟩

/-- C10: `crureadz` leaves `*value` and the device state unchanged; `readz`
never modifies the device state (in particular no register, mode flag or
memory region); and when the hideswitch is on and the offset is not served
by the 32K expansion, `readz` also leaves `*value` unchanged. -/
theorem readz_crureadz_pure (st : State) (offset v : Nat) :
    crureadz st offset v = (st, v) ∧
    (readz st offset v).1 = st ∧
    (st.hideswitch = true → readz32k st offset = none →
      (readz st offset v).2 = v) := by
  refine ⟨rfl, ?_, fun hh h32 => ?_⟩
  · cases h : readz32k st offset with
    | none =>
      rw [readz, h]
      dsimp only
      split_ifs <;> rfl
    | some w => rw [readz, h]
  · rw [readz, h32]
    dsimp only
    rw [hh]
    simp

theorem readz_crureadz_pure_witness :
    crureadz { sampleState with hideswitch := true } 0x5900 7 =
      ({ sampleState with hideswitch := true }, 7) ∧
    (readz { sampleState with hideswitch := true } 0x5900 7).1 =
      { sampleState with hideswitch := true } ∧
    (({ sampleState with hideswitch := true } : State).hideswitch = true →
      readz32k { sampleState with hideswitch := true } 0x5900 = none →
      (readz { sampleState with hideswitch := true } 0x5900 7).2 = 7) :=
  readz_crureadz_pure { sampleState with hideswitch := true } 0x5900 7

end Horizon

/-- C7: `qvt103_state::screen_update` renders nothing: for every screen,
bitmap and clip rectangle it returns 0 and leaves the bitmap unchanged. -/
theorem qvt103_screen_update_noop {Screen Bitmap Rect : Type}
    (screen : Screen) (bitmap : Bitmap) (cliprect : Rect) :
    Qvt103.screen_update screen bitmap cliprect = (bitmap, 0) := rfl

namespace Horizon

/-- The 32-bit all-ones mask used by `setbit`'s clearing branch. -/
theorem testBit_mask32 (i : Nat) :
    Nat.testBit 0xffffffff i = decide (i < 32) := by
  rw [show (0xffffffff : Nat) = 2 ^ 32 - 1 by norm_num,
    Nat.testBit_two_pow_sub_one]

/-- `setbit` forces the pattern bits to the requested value. -/
theorem setbit_and_self (page p : Nat) (s : Bool) (hp : p < 2 ^ 32) :
    setbit page p s &&& p = if s then p else 0 := by
  cases s
  · apply Nat.eq_of_testBit_eq
    intro i
    simp only [setbit, Bool.false_eq_true, if_false, Nat.testBit_and,
      Nat.testBit_xor, Nat.zero_testBit, testBit_mask32]
    by_cases hi : i < 32
    · simp only [decide_eq_true hi]
      cases page.testBit i <;> cases p.testBit i <;> rfl
    · have hpi : p.testBit i = false :=
        Nat.testBit_lt_two_pow
          (lt_of_lt_of_le hp (Nat.pow_le_pow_right (by norm_num) (le_of_not_lt hi)))
      simp [hpi]
  · apply Nat.eq_of_testBit_eq
    intro i
    simp only [setbit, if_true, Nat.testBit_and, Nat.testBit_or]
    cases page.testBit i <;> cases p.testBit i <;> rfl

/-- `setbit` leaves bits outside its pattern alone. -/
theorem setbit_and_disjoint (page p q : Nat) (s : Bool)
    (hpq : p &&& q = 0) (hq : q < 2 ^ 32) :
    setbit page p s &&& q = page &&& q := by
  have hbit : ∀ i, (p.testBit i && q.testBit i) = false := by
    intro i
    have := congrArg (fun n => Nat.testBit n i) hpq
    simpa using this
  cases s
  · apply Nat.eq_of_testBit_eq
    intro i
    simp only [setbit, Bool.false_eq_true, if_false, Nat.testBit_and,
      Nat.testBit_xor, testBit_mask32]
    by_cases hi : i < 32
    · simp only [decide_eq_true hi]
      have h := hbit i
      cases hqv : q.testBit i
      · simp
      · have hpv : p.testBit i = false := by
          rcases Bool.and_eq_false_iff.mp h with h' | h'
          · exact h'
          · rw [hqv] at h'
            exact absurd h' (by simp)
        simp [hpv]
    · have hqi : q.testBit i = false :=
        Nat.testBit_lt_two_pow
          (lt_of_lt_of_le hq (Nat.pow_le_pow_right (by norm_num) (le_of_not_lt hi)))
      simp [hqi]
  · apply Nat.eq_of_testBit_eq
    intro i
    simp only [setbit, if_true, Nat.testBit_and, Nat.testBit_or]
    have h := hbit i
    cases hpv : p.testBit i <;> cases hqv : q.testBit i <;>
      cases page.testBit i <;> simp_all

/-- Distinct single-bit patterns are disjoint. -/
theorem two_pow_and_two_pow {m n : Nat} (h : m ≠ n) : 2 ^ m &&& 2 ^ n = 0 := by
  apply Nat.eq_of_testBit_eq
  intro i
  simp only [Nat.testBit_and, Nat.testBit_two_pow, Nat.zero_testBit]
  by_cases hm : m = i <;> by_cases hn : n = i <;> simp_all

/-- The shifted patterns `0x0200 << k` are the single bits `2 ^ (9 + k)`. -/
theorem shl512 (k : Nat) : (0x0200 : Nat) <<< k = 2 ^ (9 + k) := by
  rw [show (0x0200 : Nat) = 2 ^ 9 by norm_num, Nat.shiftLeft_eq, ← pow_add]

theorem two_pow_lt32 {k : Nat} (h : k ≤ 31) : (2 : Nat) ^ k < 2 ^ 32 :=
  lt_of_le_of_lt (Nat.pow_le_pow_right (by norm_num) h) (by norm_num)

/-- The CRU bit dispatch never touches the mode/configuration fields used by
the split-mode epilogue. -/
theorem cruwriteBit_frame (st : State) (size bit data : Nat) :
    (cruwriteBit st size bit data).split_mode = st.split_mode ∧
    (cruwriteBit st size bit data).timode = st.timode ∧
    (cruwriteBit st size bit data).cru_phoenix = st.cru_phoenix := by
  simp only [cruwriteBit]
  split_ifs <;> exact ⟨rfl, rfl, rfl⟩

/-- Bit 0 (and only bit 0) drives `m_selected`. -/
theorem cruwriteBit_selected (st : State) (size bit data : Nat) :
    (cruwriteBit st size bit data).selected =
      if bit = 0 then data != 0 else st.selected := by
  simp only [cruwriteBit]
  split_ifs <;> simp_all

/-- Bit 15 (and only bit 15, when RAMBO is configured) drives `m_rambo_mode`. -/
theorem cruwriteBit_rambo (st : State) (size bit data : Nat) :
    (cruwriteBit st size bit data).rambo_mode =
      if bit = 15 ∧ st.use_rambo = true then data != 0 else st.rambo_mode := by
  simp only [cruwriteBit]
  split_ifs <;> simp_all

theorem cruwriteBit_page1 (st : State) (size data : Nat)
    (hr : st.rambo_mode = false) :
    (cruwriteBit st size 1 data).page = setbit st.page 0x0002 (data != 0) := by
  simp [cruwriteBit, hr]

theorem cruwriteBit_page2 (st : State) (size data : Nat)
    (hr : st.rambo_mode = false) :
    (cruwriteBit st size 2 data).page = setbit st.page 0x0001 (data != 0) := by
  simp [cruwriteBit, hr]

theorem cruwriteBit_page_mid (st : State) (size bit data : Nat)
    (h3 : 3 ≤ bit) (h9 : bit ≤ 9) :
    (cruwriteBit st size bit data).page =
      setbit st.page (0x0001 <<< (bit - 1)) (data != 0) := by
  simp only [cruwriteBit]
  rw [if_neg (by omega), if_neg (by omega), if_neg (by omega), if_pos (by omega)]

theorem cruwriteBit_page_hi (st : State) (size bit data : Nat)
    (h10 : 10 ≤ bit) (h13 : bit ≤ 13) (hle : bit ≤ size + 10)
    (hex : ¬(bit = size + 10 ∧ st.split_mode = true)) :
    (cruwriteBit st size bit data).page =
      setbit st.page (0x0200 <<< (bit - 10)) (data != 0) := by
  have hcond : bit ≠ size + 10 ∨ st.split_mode = false := by
    cases h : st.split_mode
    · exact Or.inr rfl
    · exact Or.inl fun hb => hex ⟨hb, h⟩
  simp only [cruwriteBit]
  rw [if_neg (by omega), if_neg (by omega), if_neg (by omega), if_neg (by omega),
    if_neg (by omega), if_neg (by omega), if_pos hcond, if_pos hle]

/-- Unfolding of `cruwrite`'s `m_page` result on a matching CRU address. -/
theorem cruwrite_page (st : State) (size offset data : Nat)
    (hmatch : (offset &&& 0xff00) = st.cru_horizon ∨
      (offset &&& 0xff00) = st.cru_phoenix) :
    (cruwrite st size offset data).page =
      (if st.split_mode then
        setbit (cruwriteBit st size ((offset >>> 1) &&& 0x0f) data).page
          (0x0200 <<< size)
          (if st.timode then decide ((offset &&& 0xff00) = st.cru_phoenix)
            else decide (7 < ((offset >>> 1) &&& 0x0f)))
      else (cruwriteBit st size ((offset >>> 1) &&& 0x0f) data).page) := by
  have hf := cruwriteBit_frame st size ((offset >>> 1) &&& 0x0f) data
  simp only [cruwrite]
  rw [if_pos hmatch, hf.1, hf.2.1, hf.2.2]
  by_cases hs : st.split_mode = true <;> by_cases ht : st.timode = true <;>
    simp_all

theorem cruwrite_selected_eq (st : State) (size offset data : Nat)
    (hmatch : (offset &&& 0xff00) = st.cru_horizon ∨
      (offset &&& 0xff00) = st.cru_phoenix) :
    (cruwrite st size offset data).selected =
      (cruwriteBit st size ((offset >>> 1) &&& 0x0f) data).selected := by
  simp only [cruwrite]
  rw [if_pos hmatch]
  split_ifs <;> rfl

theorem cruwrite_rambo_eq (st : State) (size offset data : Nat)
    (hmatch : (offset &&& 0xff00) = st.cru_horizon ∨
      (offset &&& 0xff00) = st.cru_phoenix) :
    (cruwrite st size offset data).rambo_mode =
      (cruwriteBit st size ((offset >>> 1) &&& 0x0f) data).rambo_mode := by
  simp only [cruwrite]
  rw [if_pos hmatch]
  split_ifs <;> rfl

/-- With split mode off, the epilogue is skipped entirely. -/
theorem cruwrite_nosplit (st : State) (size offset data : Nat)
    (hmatch : (offset &&& 0xff00) = st.cru_horizon ∨
      (offset &&& 0xff00) = st.cru_phoenix)
    (hs : st.split_mode = false) :
    cruwrite st size offset data =
      cruwriteBit st size ((offset >>> 1) &&& 0x0f) data := by
  have hf := (cruwriteBit_frame st size ((offset >>> 1) &&& 0x0f) data).1
  simp only [cruwrite]
  rw [if_pos hmatch, hf, hs]
  simp

/-- Bits of `m_page` disjoint from the split page bit pass through the
split-mode epilogue unchanged. -/
theorem cruwrite_page_and_eq (st : State) (size offset data q : Nat)
    (hmatch : (offset &&& 0xff00) = st.cru_horizon ∨
      (offset &&& 0xff00) = st.cru_phoenix)
    (hq : q < 2 ^ 32) (hdisj : (0x0200 <<< size) &&& q = 0) :
    (cruwrite st size offset data).page &&& q =
      (cruwriteBit st size ((offset >>> 1) &&& 0x0f) data).page &&& q := by
  rw [cruwrite_page st size offset data hmatch]
  by_cases hs : st.split_mode = true
  · rw [if_pos hs, setbit_and_disjoint _ _ _ _ hdisj hq]
  · rw [if_neg hs]

end Horizon

namespace Horizon

/-- C3: For every `cruwrite` on a matching Horizon/Phoenix CRU base, with
`bit = (offset >> 1) & 0x0f`: bit 0 sets `m_selected` to `data != 0`; bits 1
and 2 (outside RAMBO mode) set or clear page bits 0x0002 and 0x0001
respectively (the two lines swapped); bits 3-9 set or clear page bit
`0x0001 << (bit-1)`; bits 10-13 set or clear page bit `0x0200 << (bit-10)`
unless the bit equals the size-dependent split bit while split mode is on or
exceeds the split bit; bit 15 toggles `m_rambo_mode` only when RAMBO is
configured. -/
theorem cruwrite_bit_actions (st : State) (size offset data : Nat)
    (hmatch : (offset &&& 0xff00) = st.cru_horizon ∨
      (offset &&& 0xff00) = st.cru_phoenix) :
    ((cruwrite st size offset data).selected =
      if ((offset >>> 1) &&& 0x0f) = 0 then data != 0 else st.selected) ∧
    (((offset >>> 1) &&& 0x0f) = 1 → st.rambo_mode = false →
      (cruwrite st size offset data).page &&& 0x0002 =
        if data != 0 then 0x0002 else 0) ∧
    (((offset >>> 1) &&& 0x0f) = 2 → st.rambo_mode = false →
      (cruwrite st size offset data).page &&& 0x0001 =
        if data != 0 then 0x0001 else 0) ∧
    (3 ≤ ((offset >>> 1) &&& 0x0f) → ((offset >>> 1) &&& 0x0f) ≤ 9 →
      (cruwrite st size offset data).page &&&
          (0x0001 <<< (((offset >>> 1) &&& 0x0f) - 1)) =
        if data != 0 then 0x0001 <<< (((offset >>> 1) &&& 0x0f) - 1) else 0) ∧
    (10 ≤ ((offset >>> 1) &&& 0x0f) → ((offset >>> 1) &&& 0x0f) ≤ 13 →
      ((offset >>> 1) &&& 0x0f) ≤ size + 10 →
      ¬(((offset >>> 1) &&& 0x0f) = size + 10 ∧ st.split_mode = true) →
      (cruwrite st size offset data).page &&&
          (0x0200 <<< (((offset >>> 1) &&& 0x0f) - 10)) =
        if data != 0 then 0x0200 <<< (((offset >>> 1) &&& 0x0f) - 10) else 0) ∧
    ((cruwrite st size offset data).rambo_mode =
      if ((offset >>> 1) &&& 0x0f) = 15 ∧ st.use_rambo = true then data != 0
      else st.rambo_mode) := by
  refine ⟨?_, ?_, ?_, ?_, ?_, ?_⟩
  · rw [cruwrite_selected_eq st size offset data hmatch, cruwriteBit_selected]
  · intro h1 hr
    have hd : ((0x0200 : Nat) <<< size) &&& 0x0002 = 0 := by
      rw [shl512, show (0x0002 : Nat) = 2 ^ 1 by norm_num]
      exact two_pow_and_two_pow (by omega)
    rw [cruwrite_page_and_eq st size offset data 0x0002 hmatch (by norm_num) hd,
      h1, cruwriteBit_page1 st size data hr, setbit_and_self _ _ _ (by norm_num)]
  · intro h2 hr
    have hd : ((0x0200 : Nat) <<< size) &&& 0x0001 = 0 := by
      rw [shl512, show (0x0001 : Nat) = 2 ^ 0 by norm_num]
      exact two_pow_and_two_pow (by omega)
    rw [cruwrite_page_and_eq st size offset data 0x0001 hmatch (by norm_num) hd,
      h2, cruwriteBit_page2 st size data hr, setbit_and_self _ _ _ (by norm_num)]
  · intro h3 h9
    have hq : (0x0001 : Nat) <<< (((offset >>> 1) &&& 0x0f) - 1) < 2 ^ 32 := by
      rw [Nat.one_shiftLeft]
      exact two_pow_lt32 (by omega)
    have hd : ((0x0200 : Nat) <<< size) &&&
        ((0x0001 : Nat) <<< (((offset >>> 1) &&& 0x0f) - 1)) = 0 := by
      rw [shl512, Nat.one_shiftLeft]
      exact two_pow_and_two_pow (by omega)
    rw [cruwrite_page_and_eq st size offset data _ hmatch hq hd,
      cruwriteBit_page_mid st size _ data h3 h9, setbit_and_self _ _ _ hq]
  · intro h10 h13 hle hex
    have hq : (0x0200 : Nat) <<< (((offset >>> 1) &&& 0x0f) - 10) < 2 ^ 32 := by
      rw [shl512]
      exact two_pow_lt32 (by omega)
    by_cases hs : st.split_mode = true
    · have hne : ((offset >>> 1) &&& 0x0f) ≠ size + 10 := fun hb => hex ⟨hb, hs⟩
      have hd : ((0x0200 : Nat) <<< size) &&&
          ((0x0200 : Nat) <<< (((offset >>> 1) &&& 0x0f) - 10)) = 0 := by
        rw [shl512, shl512]
        exact two_pow_and_two_pow (by omega)
      rw [cruwrite_page_and_eq st size offset data _ hmatch hq hd,
        cruwriteBit_page_hi st size _ data h10 h13 hle hex,
        setbit_and_self _ _ _ hq]
    · have hs' : st.split_mode = false := by
        cases h : st.split_mode
        · rfl
        · exact absurd h hs
      rw [cruwrite_nosplit st size offset data hmatch hs',
        cruwriteBit_page_hi st size _ data h10 h13 hle hex,
        setbit_and_self _ _ _ hq]
  · rw [cruwrite_rambo_eq st size offset data hmatch, cruwriteBit_rambo]

theorem cruwrite_bit_actions_witness :
    ((0x1202 &&& 0xff00) = sampleState.cru_horizon ∨
      (0x1202 &&& 0xff00) = sampleState.cru_phoenix) ∧
    (((cruwrite sampleState 0 0x1202 1).selected =
      if ((0x1202 >>> 1) &&& 0x0f) = 0 then (1 : Nat) != 0
      else sampleState.selected) ∧
    (((0x1202 >>> 1) &&& 0x0f) = 1 → sampleState.rambo_mode = false →
      (cruwrite sampleState 0 0x1202 1).page &&& 0x0002 =
        if (1 : Nat) != 0 then 0x0002 else 0) ∧
    (((0x1202 >>> 1) &&& 0x0f) = 2 → sampleState.rambo_mode = false →
      (cruwrite sampleState 0 0x1202 1).page &&& 0x0001 =
        if (1 : Nat) != 0 then 0x0001 else 0) ∧
    (3 ≤ ((0x1202 >>> 1) &&& 0x0f) → ((0x1202 >>> 1) &&& 0x0f) ≤ 9 →
      (cruwrite sampleState 0 0x1202 1).page &&&
          (0x0001 <<< (((0x1202 >>> 1) &&& 0x0f) - 1)) =
        if (1 : Nat) != 0 then 0x0001 <<< (((0x1202 >>> 1) &&& 0x0f) - 1) else 0) ∧
    (10 ≤ ((0x1202 >>> 1) &&& 0x0f) → ((0x1202 >>> 1) &&& 0x0f) ≤ 13 →
      ((0x1202 >>> 1) &&& 0x0f) ≤ 0 + 10 →
      ¬(((0x1202 >>> 1) &&& 0x0f) = 0 + 10 ∧ sampleState.split_mode = true) →
      (cruwrite sampleState 0 0x1202 1).page &&&
          (0x0200 <<< (((0x1202 >>> 1) &&& 0x0f) - 10)) =
        if (1 : Nat) != 0 then 0x0200 <<< (((0x1202 >>> 1) &&& 0x0f) - 10) else 0) ∧
    ((cruwrite sampleState 0 0x1202 1).rambo_mode =
      if ((0x1202 >>> 1) &&& 0x0f) = 15 ∧ sampleState.use_rambo = true
      then (1 : Nat) != 0 else sampleState.rambo_mode)) :=
  ⟨Or.inl (by decide), cruwrite_bit_actions sampleState 0 0x1202 1 (Or.inl (by decide))⟩

/-- C4: On a matching `cruwrite` with split mode on, the size-dependent split
page bit `0x0200 << size` ends up set if and only if (TI mode) the access
used the Phoenix CRU base, respectively (Geneve mode) the accessed CRU bit
number exceeds 7; with split mode off the split-mode epilogue does not run
at all (`cruwrite` reduces to the plain bit dispatch). -/
theorem cruwrite_split_selection (st : State) (size offset data : Nat)
    (hmatch : (offset &&& 0xff00) = st.cru_horizon ∨
      (offset &&& 0xff00) = st.cru_phoenix)
    (hsize : size ≤ 3) :
    (st.split_mode = true →
      (st.timode = true →
        ((cruwrite st size offset data).page &&& (0x0200 <<< size) =
            0x0200 <<< size ↔
          (offset &&& 0xff00) = st.cru_phoenix)) ∧
      (st.timode = false →
        ((cruwrite st size offset data).page &&& (0x0200 <<< size) =
            0x0200 <<< size ↔
          7 < ((offset >>> 1) &&& 0x0f)))) ∧
    (st.split_mode = false →
      cruwrite st size offset data =
        cruwriteBit st size ((offset >>> 1) &&& 0x0f) data) := by
  have hsp : (0x0200 : Nat) <<< size < 2 ^ 32 := by
    rw [shl512]
    exact two_pow_lt32 (by omega)
  have hnz : (0x0200 : Nat) <<< size ≠ 0 := by
    rw [shl512]
    positivity
  refine ⟨fun hs => ⟨fun ht => ?_, fun ht => ?_⟩,
    fun hs => cruwrite_nosplit st size offset data hmatch hs⟩
  · rw [cruwrite_page st size offset data hmatch, if_pos hs, if_pos ht,
      setbit_and_self _ _ _ hsp]
    by_cases hc : (offset &&& 0xff00) = st.cru_phoenix
    · simp [hc]
    · simp [hc, Ne.symm hnz]
  · rw [cruwrite_page st size offset data hmatch, if_pos hs, ht]
    simp only [Bool.false_eq_true, if_false]
    rw [setbit_and_self _ _ _ hsp]
    by_cases hc : 7 < ((offset >>> 1) &&& 0x0f)
    · simp [hc]
    · simp [hc, Ne.symm hnz]

theorem cruwrite_split_selection_witness :
    ((0x1404 &&& 0xff00) =
        ({ sampleState with split_mode := true, timode := true } : State).cru_horizon ∨
      (0x1404 &&& 0xff00) =
        ({ sampleState with split_mode := true, timode := true } : State).cru_phoenix) ∧
    (0 : Nat) ≤ 3 ∧
    ((({ sampleState with split_mode := true, timode := true } : State).split_mode = true →
      (({ sampleState with split_mode := true, timode := true } : State).timode = true →
        ((cruwrite { sampleState with split_mode := true, timode := true } 0 0x1404 1).page &&&
            (0x0200 <<< 0) = 0x0200 <<< 0 ↔
          (0x1404 &&& 0xff00) =
            ({ sampleState with split_mode := true, timode := true } : State).cru_phoenix)) ∧
      (({ sampleState with split_mode := true, timode := true } : State).timode = false →
        ((cruwrite { sampleState with split_mode := true, timode := true } 0 0x1404 1).page &&&
            (0x0200 <<< 0) = 0x0200 <<< 0 ↔
          7 < ((0x1404 >>> 1) &&& 0x0f)))) ∧
    (({ sampleState with split_mode := true, timode := true } : State).split_mode = false →
      cruwrite { sampleState with split_mode := true, timode := true } 0 0x1404 1 =
        cruwriteBit { sampleState with split_mode := true, timode := true } 0
          ((0x1404 >>> 1) &&& 0x0f) 1)) :=
  ⟨Or.inr (by decide), by decide,
    cruwrite_split_selection { sampleState with split_mode := true, timode := true }
      0 0x1404 1 (Or.inr (by decide)) (by decide)⟩

end Horizon

namespace Horizon

/-- `setbit` with a pattern below 0x2000 keeps the page below 0x2000. -/
theorem setbit_lt (page pat : Nat) (s : Bool)
    (hp : page < 0x2000) (hpat : pat < 0x2000) :
    setbit page pat s < 0x2000 := by
  cases s
  · exact lt_of_le_of_lt Nat.and_le_left hp
  · rw [show (0x2000 : Nat) = 2 ^ 13 by norm_num] at hp hpat ⊢
    exact Nat.or_lt_two_pow hp hpat

/-- Every pattern written by the CRU bit dispatch is below 0x2000, so the
dispatch preserves the page bound. -/
theorem cruwriteBit_page_lt (st : State) (size bit data : Nat)
    (hsize : size ≤ 3) (hp : st.page < 0x2000) :
    (cruwriteBit st size bit data).page < 0x2000 := by
  simp only [cruwriteBit]
  split_ifs <;> try exact hp
  all_goals refine setbit_lt _ _ _ hp ?_
  · norm_num
  · norm_num
  · rw [Nat.one_shiftLeft]
    exact lt_of_le_of_lt (Nat.pow_le_pow_right (by norm_num) (by omega))
      (by norm_num : (2 : Nat) ^ 8 < 0x2000)
  · rw [shl512]
    exact lt_of_le_of_lt (Nat.pow_le_pow_right (by norm_num) (by omega))
      (by norm_num : (2 : Nat) ^ 12 < 0x2000)

/-- `cruwrite` preserves the page bound. -/
theorem cruwrite_page_lt (st : State) (size offset data : Nat)
    (hsize : size ≤ 3) (hp : st.page < 0x2000) :
    (cruwrite st size offset data).page < 0x2000 := by
  have hb := cruwriteBit_page_lt st size ((offset >>> 1) &&& 0x0f) data hsize hp
  have hsp : (0x0200 : Nat) <<< size < 0x2000 := by
    have : (0x0200 : Nat) <<< size ≤ 2 ^ 12 := by
      rw [shl512]
      exact Nat.pow_le_pow_right (by norm_num) (by omega)
    exact lt_of_le_of_lt this (by norm_num)
  simp only [cruwrite]
  split_ifs <;> first | exact hp | exact hb | exact setbit_lt _ _ _ hb hsp

/-- Any sequence of CRU writes preserves the page bound. -/
theorem runCru_page_lt (size : Nat) (ops : List (Nat × Nat)) (st : State)
    (hsize : size ≤ 3) (hp : st.page < 0x2000) :
    (runCru size st ops).page < 0x2000 := by
  induction ops generalizing st with
  | nil => exact hp
  | cons op ops ih =>
    exact ih (cruwrite st size op.1 op.2) (cruwrite_page_lt st size op.1 op.2 hsize hp)

/-- Pages below 0x2000 produce NVRAM indices below `MAXSIZE` in both
addressing modes. -/
theorem index_bound {p off : Nat} (hp : p < 0x2000) :
    ((p <<< 11) ||| (off &&& 0x7ff)) < MAXSIZE ∧
    (((p &&& 0xfffc) <<< 11) ||| (off &&& 0x1fff)) < MAXSIZE := by
  have key : ∀ q m : Nat, q < 0x2000 → m ≤ 0x1fff →
      ((q <<< 11) ||| (off &&& m)) < MAXSIZE := by
    intro q m hq hm
    have h1 : q <<< 11 < 2 ^ 24 := by
      rw [Nat.shiftLeft_eq]
      calc q * 2 ^ 11 < 0x2000 * 2 ^ 11 :=
            (Nat.mul_lt_mul_right (by norm_num)).mpr hq
        _ = 2 ^ 24 := by norm_num
    have h2 : off &&& m < 2 ^ 24 :=
      lt_of_le_of_lt Nat.and_le_right (lt_of_le_of_lt hm (by norm_num))
    have := Nat.or_lt_two_pow h1 h2
    rw [show MAXSIZE = 2 ^ 24 by rfl]
    exact this
  exact ⟨key p 0x7ff hp (by norm_num),
    key (p &&& 0xfffc) 0x1fff (lt_of_le_of_lt Nat.and_le_left hp) (by norm_num)⟩

/-- C8: From the reset state (`m_page = 0`), every sequence of `cruwrite`
calls keeps `m_page` strictly below 0x2000, so both NVRAM index forms used
by `readz`/`write` stay within the 16 MiB (`MAXSIZE`) NVRAM region. -/
theorem page_bound_invariant (st : State)
    (cruhor cruphoe h32 dual act rambo genmod size : Nat)
    (hsize : size ≤ 3) (ops : List (Nat × Nat)) (offset : Nat) :
    (runCru size (device_reset st cruhor cruphoe h32 dual act rambo genmod) ops).page
        < 0x2000 ∧
    (((runCru size (device_reset st cruhor cruphoe h32 dual act rambo genmod) ops).page
        <<< 11) ||| (offset &&& 0x7ff)) < MAXSIZE ∧
    ((((runCru size (device_reset st cruhor cruphoe h32 dual act rambo genmod) ops).page
        &&& 0xfffc) <<< 11) ||| (offset &&& 0x1fff)) < MAXSIZE := by
  have h0 : (device_reset st cruhor cruphoe h32 dual act rambo genmod).page = 0 := rfl
  have hlt := runCru_page_lt size ops
    (device_reset st cruhor cruphoe h32 dual act rambo genmod) hsize
    (by rw [h0]; norm_num)
  exact ⟨hlt, (index_bound hlt).1, (index_bound hlt).2⟩

theorem page_bound_invariant_witness :
    (0 : Nat) ≤ 3 ∧
    ((runCru 0 (device_reset sampleState 0x1200 0x1400 0 0 0 1 0)
        [(0x1202, 1)]).page < 0x2000 ∧
    (((runCru 0 (device_reset sampleState 0x1200 0x1400 0 0 0 1 0)
        [(0x1202, 1)]).page <<< 11) ||| (0x5800 &&& 0x7ff)) < MAXSIZE ∧
    ((((runCru 0 (device_reset sampleState 0x1200 0x1400 0 0 0 1 0)
        [(0x1202, 1)]).page &&& 0xfffc) <<< 11) ||| (0x5800 &&& 0x1fff)) < MAXSIZE) :=
  ⟨by decide,
    page_bound_invariant sampleState 0x1200 0x1400 0 0 0 1 0 0 (by decide)
      [(0x1202, 1)] 0x5800⟩

end Horizon

namespace Horizon

theorem nvram_write_length (st : State) (size : Nat) :
    (nvram_write st size).length = nvramSize size + ROSSIZE := by
  simp [nvram_write]

theorem nvram_write_getD_lo (st : State) (size i : Nat) (hi : i < nvramSize size) :
    (nvram_write st size).getD i 0 = st.nvram i := by
  have hlen : i < ((List.range (nvramSize size)).map st.nvram).length := by
    simpa using hi
  rw [nvram_write, List.getD_eq_getElem?_getD, List.getElem?_append_left hlen]
  simp [List.getElem?_range hi]

theorem nvram_write_getD_hi (st : State) (size j : Nat) (hj : j < ROSSIZE) :
    (nvram_write st size).getD (nvramSize size + j) 0 = st.ros j := by
  have hlen : ((List.range (nvramSize size)).map st.nvram).length ≤
      nvramSize size + j := by
    simp
  rw [nvram_write, List.getD_eq_getElem?_getD, List.getElem?_append_right hlen]
  simp [List.getElem?_range hj]

/-- Behaviour of `nvram_read` on a file of plausible length (what `file.read`
can actually deliver) with at least `ROSSIZE` bytes. -/
theorem nvram_read_spec (st : State) (size : Nat) (file : List Nat)
    (hmax : file.length ≤ MAXSIZE + ROSSIZE) (h8 : ROSSIZE ≤ file.length) :
    (∀ i, i < file.length - ROSSIZE →
      (nvram_read st size file).nvram i = file.getD i 0) ∧
    (∀ i, file.length - ROSSIZE ≤ i → i < nvramSize size →
      (nvram_read st size file).nvram i = 0) ∧
    (∀ j, j < ROSSIZE →
      (nvram_read st size file).ros j = file.getD (file.length - ROSSIZE + j) 0) := by
  have hmin : min file.length (MAXSIZE + ROSSIZE) = file.length := min_eq_left hmax
  refine ⟨fun i hi => ?_, fun i hi1 hi2 => ?_, fun j hj => ?_⟩
  · simp only [nvram_read, hmin, if_pos h8]
    rw [if_pos hi, if_pos (by omega)]
  · simp only [nvram_read, hmin, if_pos h8]
    rw [if_neg (by omega), if_pos hi2]
  · simp only [nvram_read, hmin, if_pos h8]
    rw [if_pos hj, if_pos (by omega)]

/-- Behaviour of `nvram_read` on a file shorter than the ROS: nothing is
copied, the configured regions stay zero-filled. -/
theorem nvram_read_short (st : State) (size : Nat) (file : List Nat)
    (hshort : file.length < ROSSIZE) :
    (∀ i, i < nvramSize size → (nvram_read st size file).nvram i = 0) ∧
    (∀ j, j < ROSSIZE → (nvram_read st size file).ros j = 0) := by
  have hmin : min file.length (MAXSIZE + ROSSIZE) = file.length :=
    min_eq_left (by unfold ROSSIZE at hshort; unfold MAXSIZE ROSSIZE; omega)
  refine ⟨fun i hi => ?_, fun j hj => ?_⟩
  · simp only [nvram_read, hmin, if_neg (by omega : ¬ROSSIZE ≤ file.length)]
    rw [if_pos hi]
  · simp only [nvram_read, hmin, if_neg (by omega : ¬ROSSIZE ≤ file.length)]
    rw [if_pos hj]

end Horizon

namespace Horizon

/-- C5: NVRAM persistence round-trips: writing the card state with
`nvram_write` and reading the resulting file back with `nvram_read` (same
size setting) restores the first `2 MiB * 2^size` bytes of NVRAM and all
8 KiB of ROS. -/
theorem nvram_roundtrip (st st2 : State) (size i j : Nat) (hsize : size ≤ 3)
    (hi : i < nvramSize size) (hj : j < ROSSIZE) :
    (nvram_read st2 size (nvram_write st size)).nvram i = st.nvram i ∧
    (nvram_read st2 size (nvram_write st size)).ros j = st.ros j := by
  have hlen : (nvram_write st size).length = nvramSize size + ROSSIZE :=
    nvram_write_length st size
  have hns : nvramSize size ≤ MAXSIZE := by
    unfold nvramSize MAXSIZE
    rw [Nat.one_shiftLeft]
    calc 2097152 * 2 ^ size ≤ 2097152 * 2 ^ 3 :=
          Nat.mul_le_mul_left _ (Nat.pow_le_pow_right (by norm_num) hsize)
      _ ≤ 16777216 := by norm_num
  have hmax : (nvram_write st size).length ≤ MAXSIZE + ROSSIZE := by
    rw [hlen]
    omega
  have h8 : ROSSIZE ≤ (nvram_write st size).length := by
    rw [hlen]
    omega
  obtain ⟨ha, _, hc⟩ := nvram_read_spec st2 size (nvram_write st size) hmax h8
  constructor
  · rw [ha i (by rw [hlen]; omega)]
    exact nvram_write_getD_lo st size i hi
  · rw [hc j hj, show (nvram_write st size).length - ROSSIZE + j =
      nvramSize size + j by rw [hlen]; omega]
    exact nvram_write_getD_hi st size j hj

theorem nvram_roundtrip_witness :
    (0 : Nat) ≤ 3 ∧ 0 < nvramSize 0 ∧ 0 < ROSSIZE ∧
    ((nvram_read sampleState 0 (nvram_write sampleState 0)).nvram 0 =
        sampleState.nvram 0 ∧
      (nvram_read sampleState 0 (nvram_write sampleState 0)).ros 0 =
        sampleState.ros 0) :=
  ⟨by decide, by decide, by decide,
    nvram_roundtrip sampleState sampleState 0 0 0 (by decide) (by decide) (by decide)⟩

/-- C6: `nvram_write` produces exactly `2 MiB * 2^size + 8192` bytes, NVRAM
contents followed by the 8 KiB ROS.  `nvram_read` zero-fills the configured
NVRAM portion and the ROS, then (for any file that `file.read` can deliver,
i.e. at most `MAXSIZE + ROSSIZE` bytes) treats the last 8192 bytes of the
file as ROS and the rest as NVRAM, and copies nothing — leaving the regions
all zero — when the file is shorter than 8192 bytes. -/
theorem nvram_layout (st : State) (size : Nat) (file : List Nat)
    (hmax : file.length ≤ MAXSIZE + ROSSIZE) :
    (nvram_write st size).length = nvramSize size + ROSSIZE ∧
    (∀ i, i < nvramSize size → (nvram_write st size).getD i 0 = st.nvram i) ∧
    (∀ j, j < ROSSIZE →
      (nvram_write st size).getD (nvramSize size + j) 0 = st.ros j) ∧
    (ROSSIZE ≤ file.length →
      (∀ i, i < file.length - ROSSIZE →
        (nvram_read st size file).nvram i = file.getD i 0) ∧
      (∀ i, file.length - ROSSIZE ≤ i → i < nvramSize size →
        (nvram_read st size file).nvram i = 0) ∧
      (∀ j, j < ROSSIZE →
        (nvram_read st size file).ros j =
          file.getD (file.length - ROSSIZE + j) 0)) ∧
    (file.length < ROSSIZE →
      (∀ i, i < nvramSize size → (nvram_read st size file).nvram i = 0) ∧
      (∀ j, j < ROSSIZE → (nvram_read st size file).ros j = 0)) :=
  ⟨nvram_write_length st size,
    fun i hi => nvram_write_getD_lo st size i hi,
    fun j hj => nvram_write_getD_hi st size j hj,
    fun h8 => nvram_read_spec st size file hmax h8,
    fun hshort => nvram_read_short st size file hshort⟩

theorem nvram_layout_witness :
    ([] : List Nat).length ≤ MAXSIZE + ROSSIZE ∧
    ((nvram_write sampleState 0).length = nvramSize 0 + ROSSIZE ∧
    (∀ i, i < nvramSize 0 →
      (nvram_write sampleState 0).getD i 0 = sampleState.nvram i) ∧
    (∀ j, j < ROSSIZE →
      (nvram_write sampleState 0).getD (nvramSize 0 + j) 0 = sampleState.ros j) ∧
    (ROSSIZE ≤ ([] : List Nat).length →
      (∀ i, i < ([] : List Nat).length - ROSSIZE →
        (nvram_read sampleState 0 []).nvram i = ([] : List Nat).getD i 0) ∧
      (∀ i, ([] : List Nat).length - ROSSIZE ≤ i → i < nvramSize 0 →
        (nvram_read sampleState 0 []).nvram i = 0) ∧
      (∀ j, j < ROSSIZE →
        (nvram_read sampleState 0 []).ros j =
          ([] : List Nat).getD (([] : List Nat).length - ROSSIZE + j) 0)) ∧
    (([] : List Nat).length < ROSSIZE →
      (∀ i, i < nvramSize 0 → (nvram_read sampleState 0 []).nvram i = 0) ∧
      (∀ j, j < ROSSIZE → (nvram_read sampleState 0 []).ros j = 0))) :=
  ⟨by decide, nvram_layout sampleState 0 [] (by decide)⟩

end Horizon
